import Mathlib

/-!
Verification of the specification of the angular-chrome-extension CLI
against its implementation, src/cli/src/service/project.service.ts.

The TypeScript service is embedded shallowly:

* JSON objects (the cloned template's manifest.json and package.json, and the
  objects the code builds by object-literal spread) become ordered association
  lists from keys to JavaScript values, where a JavaScript value is either a
  JSON value or the JavaScript undefined (modelled as the Option layer).
  Object-literal spread appends binding lists; a later binding shadows an
  earlier one, exactly as in JavaScript.  JSON serialization (fs.writeJson)
  omits a key whose final value is undefined.
* The asynchronous control flow of generate, cleanDir and install becomes
  explicit result passing: each external effect (the git clone, each
  fs.remove / fs.unlink, each JSON write, process.chdir, the npm child
  process) is a parameter giving that effect's outcome, and the embedded
  function computes what the service then does: which steps run, what is
  logged, which promise rejections are never awaited, and whether the
  process exits.
* Promise.all is modelled faithfully on the shape of the value the code
  passes to it: an element that is a promise is awaited, an element that is
  a plain array is not a thenable and is passed through unawaited.
-/

namespace ProjectService

/-- Errors thrown by collaborators (clone, filesystem, child process) are
modelled as their message strings. -/
abbrev Err := String

/-- JSON values, as parsed from and written to the JSON files the CLI touches. -/
inductive Json where
  | str (s : String)
  | num (n : Int)
  | bool (b : Bool)
  | null
  | arr (elems : List Json)
  | obj (fields : List (String × Json))

/-- A JavaScript value stored in an object property: either a JSON value or
the JavaScript undefined (none). -/
abbrev JsVal := Option Json

/-- A JavaScript object, as an ordered list of property bindings.  A later
binding shadows an earlier one, which is exactly the semantics of the object
literals with spread that the code builds. -/
abbrev JsObj := List (String × JsVal)

/-- The binding a key ends up with in a JavaScript object: the last binding
in the list wins (later spread entries override earlier ones); none when the
key never occurs. -/
def jsLookup (o : JsObj) (key : String) : Option JsVal :=
  o.foldl (fun acc p => if p.1 == key then some p.2 else acc) none

/-- JavaScript member access o.key: undefined both when the key is absent and
when it is bound to undefined. -/
def jsGet (o : JsObj) (key : String) : JsVal :=
  Option.join (jsLookup o key)

/-- The value a key has in the JSON text fs.writeJson produces for o: none
when the key is omitted from the output.  JSON.stringify omits a key whose
value is undefined, so absent keys and undefined-bound keys are both omitted. -/
def serializedGet (o : JsObj) (key : String) : Option Json :=
  Option.join (jsLookup o key)

/-- The object literal spread: the bindings of a followed by the bindings of
b, so that the keys of b override the keys of a. -/
def spread (a b : JsObj) : JsObj := a ++ b

/-- The Feature enumeration from src/cli/src/model/feature.ts, as used by
writeManifestJson. -/
inductive Feature where
  | POPUP
  | OPTIONS
  | TAB
deriving DecidableEq, Repr

/-- jsonFormat = that fs.writeJson is called with spaces: 2. -/
def jsonFormatSpaces : Nat := 2

/-- One call to fs.writeJson: the target file, the object serialized, and the
indentation option. -/
structure WriteJsonCall where
  file : String
  contents : JsObj
  spaces : Nat

/-- writeManifestJson: reads the current manifest (parameter currentManifest,
the result of require on the cloned manifest.json), builds the overlay object
literal with the two names, the description, and the three feature-gated keys,
and writes the spread of the current manifest under the overlay.
pkgName is this.pkg.name. -/
def writeManifestJson (cloneDir projectName : String) (pkgName : String)
    (features : List Feature) (currentManifest : JsObj) : WriteJsonCall :=
  let manifestJson := cloneDir ++ "/angular/src/manifest.json"
  let manifest : JsObj :=
    [ ("name", some (Json.str projectName)),
      ("short_name", some (Json.str projectName)),
      ("description", some (Json.str ("Generated with " ++ pkgName))),
      ("browser_action",
        if Feature.POPUP ∈ features then jsGet currentManifest "browser_action" else none),
      ("options_page",
        if Feature.OPTIONS ∈ features then jsGet currentManifest "options_page" else none),
      ("chrome_url_overrides",
        if Feature.TAB ∈ features then jsGet currentManifest "chrome_url_overrides" else none) ]
  { file := manifestJson
    contents := spread currentManifest manifest
    spaces := jsonFormatSpaces }

/-- writePackageJson: reads the current package.json (parameter currentPackage,
the result of require on it) and writes it back with name overridden by the
project name, description overridden, and author bound to undefined. -/
def writePackageJson (cloneDir projectName : String) (pkgName : String)
    (currentPackage : JsObj) : WriteJsonCall :=
  { file := cloneDir ++ "/package.json"
    contents := spread currentPackage
      [ ("name", some (Json.str projectName)),
        ("description", some (Json.str ("Generated with " ++ pkgName))),
        ("author", none) ]
    spaces := jsonFormatSpaces }

/-- projectNameMatch: the regular expression of the code,
matching one or more characters, each a lowercase letter, a digit, a hyphen
or an underscore, anchored at both ends.  The character class test: -/
def projectNameChar (c : Char) : Bool :=
  ( 'a' ≤ c && c ≤ 'z') || ( '0' ≤ c && c ≤ '9') || c == '-' || c == '_'

/-- The test of the anchored regular expression on a whole string: nonempty
and every character in the class. -/
def projectNameMatch (s : String) : Bool :=
  !s.data.isEmpty && s.data.all projectNameChar

/-- invalidProjectName from the code: the negation of the regex test. -/
def invalidProjectName (name : String) : Bool :=
  !projectNameMatch name

/-- How a run of validateName ends. -/
inductive NameValidation where
  | invalidName
  | alreadyExists
  | ok
deriving DecidableEq, Repr

/-- validateName: first the pattern test, then (only if the pattern passed,
since the pattern branch exits the process) the directory-existence test.
projectExists is the result of existsAsync, i.e. whether the directory
cwd/name exists. -/
def validateName (projectName : String) (projectExists : Bool) : NameValidation :=
  if invalidProjectName projectName then NameValidation.invalidName
  else if projectExists then NameValidation.alreadyExists
  else NameValidation.ok

/-- The error lines validateName logs before exiting. -/
def nameValidationLog (projectName : String) : NameValidation → List String
  | NameValidation.invalidName =>
      ["Invalid project name, must match: /^[a-z0-9-_]+$/"]
  | NameValidation.alreadyExists =>
      ["Project " ++ projectName ++ " already exists"]
  | NameValidation.ok => []

/-- The process exit validateName performs: process.exit(1) on either
failure, no exit otherwise. -/
def nameValidationExit : NameValidation → Option Nat
  | NameValidation.ok => none
  | _ => some 1

/-- The observable outcome of a validator: the error lines it logged and the
process.exit status it called, none when it returned normally. -/
structure ValidationOutcome where
  errors : List String
  exitCode : Option Nat
deriving DecidableEq, Repr

/-- validateFeatures: features.length falsy (that is, zero) logs an error and
exits the process with status 1; otherwise the function returns with no
side effect. -/
def validateFeatures (features : List Feature) : ValidationOutcome :=
  if features.length == 0 then
    { errors := ["You must select at least 1 feature"], exitCode := some 1 }
  else
    { errors := [], exitCode := none }

/-- The filesystem removal operations cleanDir starts. -/
inductive FsOp where
  | remove (path : String)
  | unlink (path : String)
deriving DecidableEq, Repr

/-- deleteFiles from the top of the module. -/
def deleteFiles : List String := ["README.md"]

/-- deleteDirs from the top of the module. -/
def deleteDirs : List String := [".git", "cli"]

/-- A JavaScript value as it appears in the array passed to Promise.all:
either a promise running a filesystem operation with a given outcome, or a
plain (non-thenable) array of such values. -/
inductive JsAsyncVal where
  | prom (op : FsOp) (result : Except Err Unit)
  | arr (elems : List JsAsyncVal)

/-- The operations Promise.all awaits: exactly its elements that are
promises.  An element that is a plain array is not a thenable, so
Promise.all adopts it as an already-settled value and awaits nothing
inside it. -/
def promiseAllAwaits (xs : List JsAsyncVal) : List FsOp :=
  xs.foldr
    (fun x acc =>
      match x with
      | JsAsyncVal.prom op _ => op :: acc
      | JsAsyncVal.arr _ => acc)
    []

/-- The settlement of the promise Promise.all returns: it rejects with the
error of an awaited element that rejects, and fulfills when every awaited
element fulfills.  Plain-array elements contribute nothing. -/
def promiseAllResult (xs : List JsAsyncVal) : Except Err Unit :=
  xs.foldr
    (fun x acc =>
      match x with
      | JsAsyncVal.prom _ (Except.error e) => Except.error e
      | JsAsyncVal.prom _ (Except.ok _) => acc
      | JsAsyncVal.arr _ => acc)
    (Except.ok ())

/-- The argument cleanDir passes to Promise.all: a two-element array whose
elements are the two arrays produced by mapping fs.remove over deleteDirs and
fs.unlink over deleteFiles.  removalResult gives the outcome of each started
operation. -/
def cleanDirPromiseAllArg (cloneDir : String)
    (removalResult : FsOp → Except Err Unit) : List JsAsyncVal :=
  [ JsAsyncVal.arr (deleteDirs.map (fun dir =>
      let op := FsOp.remove (cloneDir ++ "/" ++ dir)
      JsAsyncVal.prom op (removalResult op))),
    JsAsyncVal.arr (deleteFiles.map (fun file =>
      let op := FsOp.unlink (cloneDir ++ "/" ++ file)
      JsAsyncVal.prom op (removalResult op))) ]

/-- The removal operations cleanDir starts: the .map calls invoke fs.remove
and fs.unlink immediately, so every removal is issued. -/
def cleanDirIssuedOps (cloneDir : String) : List FsOp :=
  deleteDirs.map (fun dir => FsOp.remove (cloneDir ++ "/" ++ dir)) ++
  deleteFiles.map (fun file => FsOp.unlink (cloneDir ++ "/" ++ file))

/-- The removal operations that are guaranteed to have settled once the
promise returned by cleanDir has been awaited, i.e. before generate proceeds
to writePackageJson. -/
def cleanDirSettledOnAwait (cloneDir : String) : List FsOp :=
  promiseAllAwaits (cleanDirPromiseAllArg cloneDir (fun _ => Except.ok ()))

/-- What awaiting cleanDir yields in generate: the settlement of the
Promise.all promise it returns. -/
def cleanDirAwaited (cloneDir : String)
    (removalResult : FsOp → Except Err Unit) : Except Err Unit :=
  promiseAllResult (cleanDirPromiseAllArg cloneDir removalResult)

/-- The rejections of the started removal promises that no part of the
program ever awaits: every failed removal whose operation is not among the
ones the awaited promise settles. -/
def cleanDirUnhandledRejections (cloneDir : String)
    (removalResult : FsOp → Except Err Unit) : List Err :=
  ((cleanDirIssuedOps cloneDir).filter
      (fun op => !(decide (op ∈ cleanDirSettledOnAwait cloneDir)))).filterMap
    (fun op =>
      match removalResult op with
      | Except.error e => some e
      | Except.ok _ => none)

/-- The steps of one generate invocation. -/
inductive GenStep where
  | clone
  | clean
  | writePackage
  | writeManifest
deriving DecidableEq, Repr

/-- The observable outcome of one generate invocation. -/
structure GenerateOutcome where
  stepsRun : List GenStep
  logged : List Err
  unhandledRejections : List Err
  exitCode : Option Nat
deriving DecidableEq, Repr

/-- generate: clone, then await cleanDir, then the two JSON rewrites, all
inside one try/catch that logs the caught error; the function never calls
process.exit.  cloneRes, pkgRes and manifestRes are the outcomes of the
awaited clone and write promises; removalResult gives the outcome of each
removal cleanDir starts. -/
def generate (cloneDir : String) (cloneRes : Except Err Unit)
    (removalResult : FsOp → Except Err Unit)
    (pkgRes manifestRes : Except Err Unit) : GenerateOutcome :=
  match cloneRes with
  | Except.error e =>
      { stepsRun := [GenStep.clone], logged := [e],
        unhandledRejections := [], exitCode := none }
  | Except.ok _ =>
      let unhandled := cleanDirUnhandledRejections cloneDir removalResult
      match cleanDirAwaited cloneDir removalResult with
      | Except.error e =>
          { stepsRun := [GenStep.clone, GenStep.clean], logged := [e],
            unhandledRejections := unhandled, exitCode := none }
      | Except.ok _ =>
          match pkgRes with
          | Except.error e =>
              { stepsRun := [GenStep.clone, GenStep.clean, GenStep.writePackage],
                logged := [e], unhandledRejections := unhandled, exitCode := none }
          | Except.ok _ =>
              match manifestRes with
              | Except.error e =>
                  { stepsRun := [GenStep.clone, GenStep.clean,
                      GenStep.writePackage, GenStep.writeManifest],
                    logged := [e], unhandledRejections := unhandled,
                    exitCode := none }
              | Except.ok _ =>
                  { stepsRun := [GenStep.clone, GenStep.clean,
                      GenStep.writePackage, GenStep.writeManifest],
                    logged := [], unhandledRejections := unhandled,
                    exitCode := none }

/-- The observable outcome of one install invocation.  escaped is an
exception that left install without being handled there (a rejection of the
promise install returns). -/
structure InstallOutcome where
  escaped : Option Err
  logged : List Err
  exitCode : Option Nat
deriving DecidableEq, Repr

/-- execAsync: wraps the exec callback in a promise that rejects with the
callback error when there is one and fulfills otherwise.  execErr is the
error the child process run hands to the callback, none on success. -/
def execAsync (execErr : Option Err) : Except Err Unit :=
  match execErr with
  | some e => Except.error e
  | none => Except.ok ()

/-- install: process.chdir to the project directory first, outside the
try/catch, then await execAsync of npm ci inside the try/catch that logs the
caught error; never calls process.exit.  chdirRes is the outcome of
process.chdir. -/
def install (chdirRes : Except Err Unit) (execErr : Option Err) : InstallOutcome :=
  match chdirRes with
  | Except.error e =>
      { escaped := some e, logged := [], exitCode := none }
  | Except.ok _ =>
      match execAsync execErr with
      | Except.error e =>
          { escaped := none, logged := [e], exitCode := none }
      | Except.ok _ =>
          { escaped := none, logged := [], exitCode := none }

/-- A concrete template manifest carrying all three feature-gated keys plus an
unrelated key, used to instantiate the theorems. -/
def demoManifest : JsObj :=
  [ ("browser_action", some (Json.obj [])),
    ("options_page", some (Json.obj [])),
    ("chrome_url_overrides", some (Json.obj [])),
    ("foo", some (Json.str "bar")) ]

/-- A concrete template package.json carrying an author and an unrelated key,
used to instantiate the theorems. -/
def demoPackage : JsObj :=
  [ ("name", some (Json.str "angular-chrome-extension")),
    ("version", some (Json.str "1.0.0")),
    ("author", some (Json.str "someone")) ]

/-- Claim C1: feature-gating of the manifest is exact.  For every source
manifest containing the three gated keys, the output for the feature set
consisting of TAB alone contains chrome_url_overrides copied from the source
and omits browser_action and options_page; in general each gated key appears
in the serialized output iff its feature (POPUP, OPTIONS, TAB respectively)
is selected, and a cleared key is omitted from the serialization rather than
written with a null or undefined value. -/
theorem manifest_feature_gating (cloneDir projectName pkgName : String)
    (features : List Feature) (currentManifest : JsObj)
    (hba : jsGet currentManifest "browser_action" ≠ none)
    (hop : jsGet currentManifest "options_page" ≠ none)
    (hcu : jsGet currentManifest "chrome_url_overrides" ≠ none) :
    (features = [Feature.TAB] →
      serializedGet (writeManifestJson cloneDir projectName pkgName features currentManifest).contents
          "chrome_url_overrides" = jsGet currentManifest "chrome_url_overrides" ∧
      serializedGet (writeManifestJson cloneDir projectName pkgName features currentManifest).contents
          "browser_action" = none ∧
      serializedGet (writeManifestJson cloneDir projectName pkgName features currentManifest).contents
          "options_page" = none) ∧
    (serializedGet (writeManifestJson cloneDir projectName pkgName features currentManifest).contents
        "browser_action" ≠ none ↔ Feature.POPUP ∈ features) ∧
    (serializedGet (writeManifestJson cloneDir projectName pkgName features currentManifest).contents
        "options_page" ≠ none ↔ Feature.OPTIONS ∈ features) ∧
    (serializedGet (writeManifestJson cloneDir projectName pkgName features currentManifest).contents
        "chrome_url_overrides" ≠ none ↔ Feature.TAB ∈ features) := by
  refine ⟨?_, ?_, ?_, ?_⟩
  · rintro rfl
    refine ⟨?_, ?_, ?_⟩ <;>
      simp [serializedGet, writeManifestJson, spread, jsLookup, List.foldl_append, Option.join]
  · by_cases hp : Feature.POPUP ∈ features <;>
      simp [hp, serializedGet, writeManifestJson, spread, jsLookup, List.foldl_append,
        Option.join, hba]
  · by_cases hp : Feature.OPTIONS ∈ features <;>
      simp [hp, serializedGet, writeManifestJson, spread, jsLookup, List.foldl_append,
        Option.join, hop]
  · by_cases hp : Feature.TAB ∈ features <;>
      simp [hp, serializedGet, writeManifestJson, spread, jsLookup, List.foldl_append,
        Option.join, hcu]

/-- Witness for claim C1, at the concrete manifest demoManifest and the
feature set consisting of TAB alone. -/
theorem manifest_feature_gating_witness :
    serializedGet (writeManifestJson "d" "my-app" "tool" [Feature.TAB] demoManifest).contents
        "chrome_url_overrides" = jsGet demoManifest "chrome_url_overrides" ∧
    serializedGet (writeManifestJson "d" "my-app" "tool" [Feature.TAB] demoManifest).contents
        "browser_action" = none ∧
    serializedGet (writeManifestJson "d" "my-app" "tool" [Feature.TAB] demoManifest).contents
        "options_page" = none :=
  (manifest_feature_gating "d" "my-app" "tool" [Feature.TAB] demoManifest
    (by simp [jsGet, jsLookup, demoManifest, Option.join])
    (by simp [jsGet, jsLookup, demoManifest, Option.join])
    (by simp [jsGet, jsLookup, demoManifest, Option.join])).1 rfl

/-- Claim C2: the manifest merge leaves unrelated keys unchanged.  For every
source manifest, feature set and key outside the six keys of the overlay
object, the serialized output carries exactly the source's binding for that
key. -/
theorem manifest_unrelated_keys (cloneDir projectName pkgName : String)
    (features : List Feature) (currentManifest : JsObj) (k : String)
    (hk : k ∉ ["name", "short_name", "description", "browser_action",
      "options_page", "chrome_url_overrides"]) :
    serializedGet (writeManifestJson cloneDir projectName pkgName features currentManifest).contents k =
      serializedGet currentManifest k := by
  simp only [List.mem_cons, List.not_mem_nil, or_false, not_or] at hk
  obtain ⟨h1, h2, h3, h4, h5, h6⟩ := hk
  simp [serializedGet, writeManifestJson, spread, jsLookup, List.foldl_append,
    Ne.symm h1, Ne.symm h2, Ne.symm h3, Ne.symm h4, Ne.symm h5, Ne.symm h6]

/-- Witness for claim C2, at the unrelated key foo of demoManifest. -/
theorem manifest_unrelated_keys_witness :
    serializedGet (writeManifestJson "d" "my-app" "tool" [Feature.POPUP, Feature.TAB]
        demoManifest).contents "foo" = serializedGet demoManifest "foo" :=
  manifest_unrelated_keys "d" "my-app" "tool" [Feature.POPUP, Feature.TAB] demoManifest "foo"
    (by decide)

/-- Claim C3: the rewritten package.json has name equal to the project name,
description equal to Generated with the tool's package name, no author key in
the serialized output, every other key of the original object unchanged, and
it is written with 2-space indentation. -/
theorem writePackageJson_spec (cloneDir projectName pkgName : String)
    (currentPackage : JsObj) :
    serializedGet (writePackageJson cloneDir projectName pkgName currentPackage).contents "name" =
      some (Json.str projectName) ∧
    serializedGet (writePackageJson cloneDir projectName pkgName currentPackage).contents
        "description" = some (Json.str ("Generated with " ++ pkgName)) ∧
    serializedGet (writePackageJson cloneDir projectName pkgName currentPackage).contents
        "author" = none ∧
    (∀ k, k ∉ ["name", "description", "author"] →
      serializedGet (writePackageJson cloneDir projectName pkgName currentPackage).contents k =
        serializedGet currentPackage k) ∧
    (writePackageJson cloneDir projectName pkgName currentPackage).spaces = 2 := by
  refine ⟨?_, ?_, ?_, ?_, rfl⟩
  · simp [serializedGet, writePackageJson, spread, jsLookup, List.foldl_append, Option.join]
  · simp [serializedGet, writePackageJson, spread, jsLookup, List.foldl_append, Option.join]
  · simp [serializedGet, writePackageJson, spread, jsLookup, List.foldl_append, Option.join]
  · intro k hk
    simp only [List.mem_cons, List.not_mem_nil, or_false, not_or] at hk
    obtain ⟨h1, h2, h3⟩ := hk
    simp [serializedGet, writePackageJson, spread, jsLookup, List.foldl_append,
      Ne.symm h1, Ne.symm h2, Ne.symm h3]

/-- Witness for claim C3, at the concrete package.json demoPackage: the
author key is cleared and the unrelated key version is preserved. -/
theorem writePackageJson_spec_witness :
    serializedGet (writePackageJson "d" "my-app" "tool" demoPackage).contents "author" = none ∧
    serializedGet (writePackageJson "d" "my-app" "tool" demoPackage).contents "version" =
      serializedGet demoPackage "version" :=
  ⟨(writePackageJson_spec "d" "my-app" "tool" demoPackage).2.2.1,
   (writePackageJson_spec "d" "my-app" "tool" demoPackage).2.2.2.1 "version" (by decide)⟩

/-- Claim C4: validateName rejects exactly when the name is bad.  A string
matching the pattern is never rejected on pattern grounds, any other string
is; a pattern-valid name is rejected as already existing iff the directory
exists; every failure logs an error line and exits the process with status 1,
and otherwise validateName returns normally with no log and no exit. -/
theorem validateName_spec (s : String) (ex : Bool) :
    (projectNameMatch s = true → validateName s ex ≠ NameValidation.invalidName) ∧
    (projectNameMatch s = false → validateName s ex = NameValidation.invalidName) ∧
    (projectNameMatch s = true →
      (validateName s ex = NameValidation.alreadyExists ↔ ex = true)) ∧
    (validateName s ex ≠ NameValidation.ok →
      nameValidationExit (validateName s ex) = some 1 ∧
      nameValidationLog s (validateName s ex) ≠ []) ∧
    (validateName s ex = NameValidation.ok →
      nameValidationExit (validateName s ex) = none ∧
      nameValidationLog s (validateName s ex) = []) := by
  cases h : projectNameMatch s <;> cases ex <;>
    simp [validateName, invalidProjectName, h, nameValidationExit, nameValidationLog]

/-- Witness for claim C4: the pattern-valid name my-app with an existing
directory is rejected as already existing. -/
theorem validateName_spec_witness :
    validateName "my-app" true = NameValidation.alreadyExists :=
  ((validateName_spec "my-app" true).2.2.1 (by decide)).mpr rfl

/-- Claim C5: validateFeatures fails, logging an error and exiting the
process with status 1, iff the feature collection is empty; on any non-empty
collection it returns normally with no log and no exit. -/
theorem validateFeatures_spec (features : List Feature) :
    ((validateFeatures features).exitCode = some 1 ↔ features = []) ∧
    ((validateFeatures features).errors ≠ [] ↔ features = []) ∧
    (features ≠ [] → validateFeatures features = { errors := [], exitCode := none }) := by
  cases features <;> simp [validateFeatures]

/-- Witness for claim C5: the singleton feature collection POPUP passes with
no side effect. -/
theorem validateFeatures_spec_witness :
    validateFeatures [Feature.POPUP] = { errors := [], exitCode := none } :=
  (validateFeatures_spec [Feature.POPUP]).2.2 (by decide)

/-- Claim C6 fails on the code: cleanDir hands Promise.all a two-element
array whose elements are plain arrays of promises, not promises, so the
promise cleanDir returns fulfills without awaiting any removal.  At the
concrete project directory proj, the set of removal operations guaranteed
settled when generate proceeds to writePackageJson is empty, while cleanDir
has issued all three removals. -/
theorem cleanDir_no_barrier_before_step4 :
    cleanDirSettledOnAwait "proj" = [] ∧
    cleanDirIssuedOps "proj" =
      [FsOp.remove "proj/.git", FsOp.remove "proj/cli", FsOp.unlink "proj/README.md"] := by
  decide

/-- Claim C7 fails on the code: a rejection of one of the clean-phase
removals is never awaited, so the try/catch of generate does not see it.
With every removal failing with EACCES and the other steps succeeding,
generate logs nothing, the three rejections stay unhandled, and generate
still returns normally. -/
theorem generate_does_not_catch_clean_phase_errors :
    (generate "proj" (Except.ok ()) (fun _ => Except.error "EACCES")
        (Except.ok ()) (Except.ok ())).logged = [] ∧
    (generate "proj" (Except.ok ()) (fun _ => Except.error "EACCES")
        (Except.ok ()) (Except.ok ())).unhandledRejections = ["EACCES", "EACCES", "EACCES"] ∧
    (generate "proj" (Except.ok ()) (fun _ => Except.error "EACCES")
        (Except.ok ()) (Except.ok ())).exitCode = none := by
  decide

/-- Claim C8: when the child package-manager command fails, install catches
the failure, logs it, and returns normally: nothing escapes install and no
process exit happens. -/
theorem install_catches_child_process_failure (e : Err) :
    install (Except.ok ()) (some e) =
      { escaped := none, logged := [e], exitCode := none } := rfl

/-- Claim C9: an absent deletion target cannot abort the clean phase or the
generation.  Whatever outcome each removal has (in particular the outcome its
primitive produces on an absent target), the awaited cleanDir promise
fulfills and generate runs every remaining step and returns normally. -/
theorem clean_phase_absence_cannot_abort_generation (cloneDir : String)
    (removalResult : FsOp → Except Err Unit) :
    cleanDirAwaited cloneDir removalResult = Except.ok () ∧
    generate cloneDir (Except.ok ()) removalResult (Except.ok ()) (Except.ok ()) =
      { stepsRun := [GenStep.clone, GenStep.clean, GenStep.writePackage, GenStep.writeManifest],
        logged := [],
        unhandledRejections := cleanDirUnhandledRejections cloneDir removalResult,
        exitCode := none } :=
  ⟨rfl, rfl⟩

/-- Claim C10: install changes the working directory before entering its
try/catch, so a chdir failure escapes install unlogged, unlike a failure of
the child install command, which is caught and logged. -/
theorem install_chdir_error_escapes (e : Err) (execErr : Option Err) :
    (install (Except.error e) execErr).escaped = some e ∧
    (install (Except.error e) execErr).logged = [] ∧
    (install (Except.error e) execErr).exitCode = none ∧
    (∀ e2, (install (Except.ok ()) (some e2)).escaped = none ∧
      (install (Except.ok ()) (some e2)).logged = [e2]) :=
  ⟨rfl, rfl, rfl, fun _ => ⟨rfl, rfl⟩⟩

end ProjectService
